import Mathlib

/-!
Verification development for the per-session retrieval-and-answer pipeline of
the PCCC chatbot (Next.js/TypeScript).  The TypeScript services are shallowly
embedded as executable Lean definitions:

* strings are modelled through `List Char` helpers mirroring the JavaScript
  string operations used by the code (`toLowerCase`, `trim`, `split(/\s+/)`,
  `replace(/\s+/g, ' ')`, `substring`, `includes`, global regex match counts
  for plain-word patterns);
* JavaScript numbers that carry relevance scores are modelled as rationals;
* the external embedding provider / in-memory vector store (langchain) is
  modelled as an oracle: a record carrying the stored-vector count used by
  validation and the outcome of each similarity-search call;
* fallible asynchronous calls are modelled with `Except`: a rejected promise
  carrying a JavaScript `Error` is `Except.error msg` with the error message
  (timeout rejections are ordinary errors whose message mentions a timeout,
  matching the `Promise.race` pattern in the source).
-/

/-! ## JavaScript string helpers -/

/-- Whitespace test mirroring the characters relevant to the regexes
`/\s+/` and `trim` on the data handled by the services. -/
def jsWs (c : Char) : Bool :=
  c = ' ' || c = '\t' || c = '\n' || c = '\r'

/-- Character-wise lower-casing, mirroring `String.prototype.toLowerCase`
on the ASCII range that the scoring code relies on. -/
def jsLowerList (l : List Char) : List Char := l.map Char.toLower

/-- Mirror of `String.prototype.trim`. -/
def jsTrimList (l : List Char) : List Char :=
  ((l.dropWhile jsWs).reverse.dropWhile jsWs).reverse

/-- Mirror of `replace(/\s+/g, ' ')`: every maximal whitespace run becomes a
single space. -/
def collapseWsList : List Char → List Char
  | [] => []
  | [c] => if jsWs c then [' '] else [c]
  | c :: d :: t =>
    if jsWs c && jsWs d then collapseWsList (d :: t)
    else (if jsWs c then ' ' else c) :: collapseWsList (d :: t)

/-- Mirror of `split(/\s+/)` followed by dropping empty fragments (the
callers immediately filter by a positive length bound, so empty fragments
never survive). -/
def jsSplitWs (l : List Char) : List (List Char) :=
  (l.splitOnP jsWs).filter (fun t => !t.isEmpty)

/-- Mirror of `String.prototype.includes`. -/
def containsSubstrList (hay need : List Char) : Bool :=
  hay.tails.any (fun t => need.isPrefixOf t)

/-- Fuel-driven worker for `countOccurList`; the fuel is always instantiated
with more steps than the haystack has characters, so for a non-empty needle it
never runs out. -/
def countOccurFuel (need : List Char) : Nat → List Char → Nat
  | 0, _ => 0
  | _ + 1, [] => 0
  | fuel + 1, c :: t =>
    if need.isPrefixOf (c :: t) then
      1 + countOccurFuel need fuel ((c :: t).drop need.length)
    else
      countOccurFuel need fuel t

/-- Number of non-overlapping, leftmost occurrences of `need` in `hay`:
the length of `hay.match(new RegExp(need, 'g'))` for the plain-word terms
produced by the tokenizer (terms have length at least three, so the needle is
never empty). -/
def countOccurList (hay need : List Char) : Nat :=
  countOccurFuel need (hay.length + 1) hay

/-- String wrappers for the list-level helpers. -/
def jsLower (s : String) : String := String.mk (jsLowerList s.toList)

def jsTrim (s : String) : String := String.mk (jsTrimList s.toList)

def collapseWs (s : String) : String := String.mk (collapseWsList s.toList)

/-- Mirror of `substring(0, n)`. -/
def jsTake (n : Nat) (s : String) : String := String.mk (s.toList.take n)

def containsSubstr (hay need : String) : Bool :=
  containsSubstrList hay.toList need.toList

def countOccur (hay need : String) : Nat :=
  countOccurList hay.toList need.toList

/-- Length of a string in characters, mirroring `String.prototype.length` on
the material handled here. -/
def jsLen (s : String) : Nat := s.toList.length

/-! ## Shared configuration (`src/services/constants.ts`) -/

def PROCESSING_CONFIG.SMALL_DOC_THRESHOLD : Nat := 20
def PROCESSING_CONFIG.MEDIUM_DOC_THRESHOLD : Nat := 50
def PROCESSING_CONFIG.MAX_SAMPLED_CHUNKS : Nat := 100
def PROCESSING_CONFIG.SMALL_DOC_CHUNK_SIZE : Nat := 800
def PROCESSING_CONFIG.SMALL_DOC_CHUNK_OVERLAP : Nat := 100
def PROCESSING_CONFIG.MEDIUM_DOC_CHUNK_SIZE : Nat := 1000
def PROCESSING_CONFIG.MEDIUM_DOC_CHUNK_OVERLAP : Nat := 150
def PROCESSING_CONFIG.LARGE_DOC_CHUNK_SIZE : Nat := 1200
def PROCESSING_CONFIG.LARGE_DOC_CHUNK_OVERLAP : Nat := 200
def PROCESSING_CONFIG.STANDARD_BATCH_SIZE : Nat := 50
def PROCESSING_CONFIG.MEDIUM_BATCH_SIZE : Nat := 25
def PROCESSING_CONFIG.LARGE_BATCH_SIZE : Nat := 10
def PROCESSING_CONFIG.MAX_SEARCH_RESULTS : Nat := 3
def PROCESSING_CONFIG.SESSION_CLEANUP_HOURS : Nat := 24
def API_CONFIG.MAX_QUESTION_LENGTH : Nat := 1000
def API_CONFIG.MAX_SEARCH_RESULTS_LENGTH : Nat := 8000
def API_CONFIG.MAX_RESPONSE_LENGTH : Nat := 10000

/-! ## Data model -/

/-- A langchain `Document`: the page content together with the
`metadata.source` field read by the search services. -/
structure Doc where
  pageContent : String
  source : Option String
deriving DecidableEq, Repr

/-- `SearchResult` from `searchService.ts` (the `metadata` bag is reduced to
the `source` field, the only part the pipeline reads back). -/
structure SearchResult where
  content : String
  score : Option ℚ
  source : Option String
deriving DecidableEq, Repr

/-- `CombinedSearchResult` from `searchService.ts`. -/
structure CombinedSearchResult where
  success : Bool
  results : List SearchResult
  totalFound : Nat
  searchType : String
  error : Option String
deriving DecidableEq, Repr

/-- `SearchOptions` from `searchService.ts`; `none` stands for an omitted
field, defaulted at the use site exactly as in the source. -/
structure SearchOptions where
  maxResults : Option Nat := none
  includeScores : Option Bool := none
  minScore : Option ℚ := none

/-- The in-memory vector store together with its external search behaviour.
`numVectors` is `memoryVectors.length`, read by validation; the two search
fields are the provider-dependent outcomes of `similaritySearchWithScore`
and `similaritySearch` (a rejected call is `Except.error` with the message
of the `Error` it rejects with). -/
structure MemoryVectorStore where
  numVectors : Nat
  searchWithScore : String → Nat → Except String (List (Doc × ℚ))
  searchNoScore : String → Nat → Except String (List Doc)

/-- Result of `VectorStoreService.validateVectorStore`. -/
structure ValidationResult where
  isValid : Bool
  error : Option String
deriving DecidableEq, Repr

/-- `VectorStoreService.validateVectorStore`: a null store and an empty
store are both invalid. -/
def VectorStoreService.validateVectorStore (vs : Option MemoryVectorStore) :
    ValidationResult :=
  match vs with
  | none => ⟨false, some "Vector store is null or undefined"⟩
  | some v =>
    if v.numVectors = 0 then ⟨false, some "Vector store contains no documents"⟩
    else ⟨true, none⟩

/-- `VectorStoreService.similaritySearchWithScore`: rejects an empty query,
then defers to the store's external search call. -/
def VectorStoreService.similaritySearchWithScore (vs : MemoryVectorStore)
    (query : String) (k : Nat) : Except String (List (Doc × ℚ)) :=
  if jsTrim query = "" then Except.error "Query cannot be empty"
  else vs.searchWithScore query k

/-- `VectorStoreService.similaritySearch` (score-free variant). -/
def VectorStoreService.similaritySearch (vs : MemoryVectorStore)
    (query : String) (k : Nat) : Except String (List Doc) :=
  if jsTrim query = "" then Except.error "Query cannot be empty"
  else vs.searchNoScore query k

/-! ## SearchService (`src/services/search/searchService.ts`) -/

/-- A failing `CombinedSearchResult` of the given search type. -/
def mkSearchFailure (searchType msg : String) : CombinedSearchResult :=
  ⟨false, [], 0, searchType, some msg⟩

/-- `SearchService.generateResultKey`: the first 100 characters of the
content, lower-cased, whitespace-collapsed and trimmed — the deduplication
key of hybrid search. -/
def SearchService.generateResultKey (content : String) : String :=
  jsTrim (collapseWs (jsLower (jsTake 100 content)))

/-- Deduplication key of a search result. -/
def keyOf (r : SearchResult) : String := SearchService.generateResultKey r.content

/-- The query terms of `SearchService.textSearch`: the lower-cased query split
on whitespace, keeping only terms longer than two characters. -/
def SearchService.queryTermsOf (query : String) : List String :=
  ((jsSplitWs (jsLowerList query.toList)).map String.mk).filter (fun t => jsLen t > 2)

/-- The per-document relevance score of `SearchService.textSearch`: each term
contributes its occurrence count weighted by `term.length / 10`, and a chunk
containing the whole lower-cased query earns a bonus of twice the number of
terms. -/
def SearchService.scoreDoc (query : String) (doc : Doc) : ℚ :=
  let content := jsLower doc.pageContent
  let terms := SearchService.queryTermsOf query
  let base : ℚ :=
    (terms.map (fun t => (countOccur content t : ℚ) * ((jsLen t : ℚ) / 10))).sum
  if containsSubstr content (jsLower query) then
    base + (terms.length : ℚ) * 2
  else base

/-- Descending-by-score ordering used to model `Array.prototype.sort` with the
comparator `(a, b) => b.score - a.score` (scores defaulting to zero where the
source writes `score || 0`). -/
def scoreGE (f : α → ℚ) (x y : α) : Prop := f y ≤ f x

instance (f : α → ℚ) : DecidableRel (scoreGE f) := fun x y =>
  inferInstanceAs (Decidable (f y ≤ f x))

instance (f : α → ℚ) : IsTotal α (scoreGE f) :=
  ⟨fun x y => le_total (f y) (f x)⟩

instance (f : α → ℚ) : IsTrans α (scoreGE f) :=
  ⟨fun _ _ _ h₁ h₂ => le_trans h₂ h₁⟩

/-- Sort a list in descending order of the given score projection. -/
def sortDescBy (f : α → ℚ) (l : List α) : List α :=
  l.insertionSort (scoreGE f)

/-- `SearchService.textSearch`: pure lexical scoring over the stored chunks.
Scores every chunk, keeps the strictly positive ones, sorts descending and
returns at most `maxResults` results (default 3). -/
def SearchService.textSearch (documents : List Doc) (query : String)
    (options : SearchOptions) : CombinedSearchResult :=
  let maxResults := options.maxResults.getD PROCESSING_CONFIG.MAX_SEARCH_RESULTS
  if jsTrim query = "" then mkSearchFailure "text" "Query cannot be empty"
  else if documents.isEmpty then
    mkSearchFailure "text" "No documents available for search"
  else
    let scored := (documents.map (fun d => (d, SearchService.scoreDoc query d))).filter
      (fun p => 0 < p.2)
    let limited := (sortDescBy (fun p => p.2) scored).take maxResults
    let searchResults := limited.map (fun p =>
      ({ content := p.1.pageContent, score := some p.2, source := p.1.source } : SearchResult))
    ⟨true, searchResults, searchResults.length, "text", none⟩

/-- Result-processing loop of `SearchService.vectorSearch` in the
`includeScores` branch: score filters, the short-content filter, and the
early break once `maxResults` results are collected (the JS loop breaks only
after pushing, so with `maxResults = 0` the first passing result is still
kept, exactly as in the source). -/
def SearchService.vsProcessScored (minScore : ℚ) (maxResults : Nat) :
    List (Doc × ℚ) → Nat → List SearchResult
  | [], _ => []
  | (doc, score) :: rest, cnt =>
    if 0 < minScore ∧ score < minScore then
      SearchService.vsProcessScored minScore maxResults rest cnt
    else if score ≠ 0 ∧ score < 1/10 then
      SearchService.vsProcessScored minScore maxResults rest cnt
    else if jsLen (jsTrim doc.pageContent) < 50 then
      SearchService.vsProcessScored minScore maxResults rest cnt
    else
      let r : SearchResult :=
        { content := doc.pageContent, score := some score, source := doc.source }
      if maxResults ≤ cnt + 1 then [r]
      else r :: SearchService.vsProcessScored minScore maxResults rest (cnt + 1)

/-- Result-processing loop of `SearchService.vectorSearch` in the score-free
branch: only the short-content filter and the early break apply. -/
def SearchService.vsProcessPlain (maxResults : Nat) :
    List Doc → Nat → List SearchResult
  | [], _ => []
  | doc :: rest, cnt =>
    if jsLen (jsTrim doc.pageContent) < 50 then
      SearchService.vsProcessPlain maxResults rest cnt
    else
      let r : SearchResult :=
        { content := doc.pageContent, score := none, source := doc.source }
      if maxResults ≤ cnt + 1 then [r]
      else r :: SearchService.vsProcessPlain maxResults rest (cnt + 1)

/-- `SearchService.vectorSearch`: empty-query check, store validation, the
provider call (with a three-fold over-fetch in the scored branch), then the
filtering loop. -/
def SearchService.vectorSearch (vectorStore : MemoryVectorStore) (query : String)
    (options : SearchOptions) : CombinedSearchResult :=
  let maxResults := options.maxResults.getD PROCESSING_CONFIG.MAX_SEARCH_RESULTS
  let includeScores := options.includeScores.getD true
  let minScore := options.minScore.getD 0
  if jsTrim query = "" then mkSearchFailure "vector" "Query cannot be empty"
  else
    let validation := VectorStoreService.validateVectorStore (some vectorStore)
    if !validation.isValid then
      mkSearchFailure "vector" (validation.error.getD "Invalid vector store")
    else if includeScores then
      match VectorStoreService.similaritySearchWithScore vectorStore query (maxResults * 3) with
      | Except.error e => mkSearchFailure "vector" e
      | Except.ok rs =>
        let processed := SearchService.vsProcessScored minScore maxResults rs 0
        ⟨true, processed, processed.length, "vector", none⟩
    else
      match VectorStoreService.similaritySearch vectorStore query maxResults with
      | Except.error e => mkSearchFailure "vector" e
      | Except.ok rs =>
        let processed := SearchService.vsProcessPlain maxResults rs 0
        ⟨true, processed, processed.length, "vector", none⟩

/-! ### The `Map<string, SearchResult>` used by hybrid search

JavaScript `Map` preserves insertion order and updates values in place; it is
modelled as an association list with unique keys. -/

/-- Keys of an association list. -/
def rKeys (m : List (String × SearchResult)) : List String := m.map (fun p => p.1)

/-- Whether the map has a key (`Map.prototype.has` / a successful `get`). -/
def rHas (m : List (String × SearchResult)) (k : String) : Bool :=
  m.any (fun p => p.1 = k)

/-- `Map.prototype.get` returning the stored value. -/
def rGet (m : List (String × SearchResult)) (k : String) : Option SearchResult :=
  (m.find? (fun p => p.1 = k)).map (fun p => p.2)

/-- `Map.prototype.set`: update in place when the key exists (keeping its
insertion position), append otherwise. -/
def rSet (m : List (String × SearchResult)) (k : String) (v : SearchResult) :
    List (String × SearchResult) :=
  if rHas m k then m.map (fun p => if p.1 = k then (k, v) else p)
  else m ++ [(k, v)]

/-- First phase of the hybrid combination (the first `for` loop): vector
results enter the map with their scores boosted by 1.2. -/
def SearchService.addVectorResults (m : List (String × SearchResult)) :
    List SearchResult → List (String × SearchResult)
  | [] => m
  | r :: rs =>
    SearchService.addVectorResults
      (rSet m (keyOf r) { r with score := some (r.score.getD 0 * (12/10)) }) rs

/-- Second phase of the hybrid combination (the second `for` loop): each text
result either merges into an existing entry (adding 0.8 times its score) or
enters the map with its score weighted by 0.8. -/
def SearchService.addTextResults (m : List (String × SearchResult)) :
    List SearchResult → List (String × SearchResult)
  | [] => m
  | r :: rs =>
    SearchService.addTextResults
      (match rGet m (keyOf r) with
      | some existing =>
        rSet m (keyOf r)
          { existing with score := some (existing.score.getD 0 + r.score.getD 0 * (8/10)) }
      | none => rSet m (keyOf r) { r with score := some (r.score.getD 0 * (8/10)) }) rs

/-- Sub-search budget `Math.ceil(maxResults * 0.7)` given to vector search by
hybrid search. -/
def hybridVectorBudget (maxResults : Nat) : Nat := (7 * maxResults + 9) / 10

/-- Sub-search budget `Math.ceil(maxResults * 0.5)` given to text search by
hybrid search. -/
def hybridTextBudget (maxResults : Nat) : Nat := (maxResults + 1) / 2

/-- The options handed to the vector sub-search of hybrid search:
the caller's options with the 70% budget. -/
def hybridVectorOptions (options : SearchOptions) : SearchOptions :=
  { options with maxResults := some (hybridVectorBudget (options.maxResults.getD PROCESSING_CONFIG.MAX_SEARCH_RESULTS)) }

/-- The options handed to the text sub-search of hybrid search:
the caller's options with the 50% budget. -/
def hybridTextOptions (options : SearchOptions) : SearchOptions :=
  { options with maxResults := some (hybridTextBudget (options.maxResults.getD PROCESSING_CONFIG.MAX_SEARCH_RESULTS)) }

/-- The deduplicating `Map` of `SearchService.hybridSearch` after the vector
phase: boosted vector results, or nothing when the vector sub-search
failed. -/
def SearchService.hybridVectorMap (vectorStore : MemoryVectorStore)
    (query : String) (options : SearchOptions) : List (String × SearchResult) :=
  if (SearchService.vectorSearch vectorStore query (hybridVectorOptions options)).success then
    SearchService.addVectorResults []
      (SearchService.vectorSearch vectorStore query (hybridVectorOptions options)).results
  else []

/-- The deduplicating `Map` of `SearchService.hybridSearch` after both
phases: boosted vector results first, then text results merged in or
down-weighted.  A failing text sub-search contributes nothing. -/
def SearchService.hybridCombinedMap (vectorStore : MemoryVectorStore)
    (documents : List Doc) (query : String) (options : SearchOptions) :
    List (String × SearchResult) :=
  if (SearchService.textSearch documents query (hybridTextOptions options)).success then
    SearchService.addTextResults (SearchService.hybridVectorMap vectorStore query options)
      (SearchService.textSearch documents query (hybridTextOptions options)).results
  else SearchService.hybridVectorMap vectorStore query options

/-- `SearchService.hybridSearch`: run both sub-searches, merge their results
through the deduplicating map (vector first, text second), sort by combined
score and truncate.  The combined call itself reports success. -/
def SearchService.hybridSearch (vectorStore : MemoryVectorStore) (documents : List Doc)
    (query : String) (options : SearchOptions) : CombinedSearchResult :=
  let maxResults := options.maxResults.getD PROCESSING_CONFIG.MAX_SEARCH_RESULTS
  let finalResults :=
    (sortDescBy (fun r => r.score.getD 0)
      ((SearchService.hybridCombinedMap vectorStore documents query options).map
        (fun p => p.2))).take maxResults
  ⟨true, finalResults, finalResults.length, "hybrid", none⟩

/-- `SearchService.smartSearch`: adaptive strategy selection from the
available resources and the trimmed query length. -/
def SearchService.smartSearch (vectorStore : Option MemoryVectorStore)
    (documents : List Doc) (query : String) (options : SearchOptions) :
    CombinedSearchResult :=
  let hasVectorStore := (VectorStoreService.validateVectorStore vectorStore).isValid
  let hasDocuments := !documents.isEmpty
  if !hasVectorStore && !hasDocuments then
    mkSearchFailure "none" "No search resources available"
  else
    let queryLength := jsLen (jsTrim query)
    let isShortQuery := queryLength < 20
    let isLongQuery := 100 < queryLength
    match vectorStore with
    | some v =>
      if hasVectorStore && hasDocuments && !isShortQuery then
        SearchService.hybridSearch v documents query options
      else if hasVectorStore && !isLongQuery then
        SearchService.vectorSearch v query options
      else if hasDocuments then
        SearchService.textSearch documents query options
      else mkSearchFailure "none" "No suitable search method available"
    | none =>
      if hasDocuments then SearchService.textSearch documents query options
      else mkSearchFailure "none" "No suitable search method available"

/-! ## LLMService (`src/services/llm/llmService.ts`) -/

/-- The canonical nothing-found sentinel produced by
`SearchService.formatSearchResults` on an empty result list and recognised by
`LLMService.generateResponse`. -/
def noRelevantInfoSentinel : String :=
  "No relevant information found in the uploaded document."

/-- The fixed no-relevant-information reply returned without a model call. -/
def noRelevantInfoReply : String :=
  "Tôi không tìm thấy thông tin liên quan trong tài liệu PDF đã tải lên để trả lời câu hỏi của bạn. Vui lòng thử diễn đạt lại câu hỏi hoặc tải lên tài liệu khác có chứa thông tin liên quan."

/-- Result record of `LLMService.generateResponse`. -/
structure GenerateResult where
  success : Bool
  response : Option String
  error : Option String
deriving DecidableEq, Repr

/-- `LLMService._createRAGPrompt` (only its dependence on the question and the
context matters to the pipeline; the surrounding instructions are fixed
text). -/
def LLMService.createRAGPrompt (question searchResults : String) : String :=
  "Bạn là một Chuyên gia Tuân thủ An toàn Phòng cháy chữa cháy (PCCC).\n\nTHÔNG TIN TỪ TÀI LIỆU PCCC:\n" ++
    searchResults ++ "\n\nCÂU HỎI CỦA NGƯỜI DÙNG:\n" ++ question ++ "\n\nCÂU TRẢ LỜI:"

/-- `LLMService._isGenericResponse`: the lower-cased response contains one of
a fixed list of refusal phrases. -/
def LLMService.isGenericResponse (response : String) : Bool :=
  let lower := jsLower response
  [ "tôi không thể", "xin lỗi", "không có thông tin",
    "tôi cần thêm thông tin", "không thể trả lời"
  ].any (fun phrase => containsSubstr lower phrase)

/-- `LLMService._cleanResponse`: trim, and truncate over-long responses with a
truncation notice. -/
def LLMService.cleanResponse (response : String) : String :=
  let cleaned := jsTrim response
  if API_CONFIG.MAX_RESPONSE_LENGTH < jsLen cleaned then
    jsTake API_CONFIG.MAX_RESPONSE_LENGTH cleaned ++ "...\n\n[Câu trả lời đã được rút gọn]"
  else cleaned

/-- `LLMService._handleLLMError`: map a model-call error message to one of the
category-specific apologetic replies. -/
def LLMService.handleLLMError (msg : String) : String :=
  if containsSubstr msg "timeout" then
    "Xin lỗi, việc xử lý câu hỏi đang mất nhiều thời gian hơn dự kiến. Vui lòng thử lại với câu hỏi ngắn gọn hơn."
  else if containsSubstr msg "quota" || containsSubstr msg "rate limit" then
    "Tôi xin lỗi, hiện tại hệ thống đang quá tải. Vui lòng thử lại sau ít phút."
  else if containsSubstr msg "authentication" || containsSubstr msg "API key" then
    "Xin lỗi, có vấn đề với cấu hình hệ thống. Vui lòng liên hệ quản trị viên."
  else
    "Tôi xin lỗi, nhưng tôi đang gặp sự cố kỹ thuật khi xử lý câu hỏi của bạn. Vui lòng thử lại sau."

/-- Disclaimer appended to generic-sounding answers. -/
def genericDisclaimer : String :=
  "\n\n*Lưu ý: Câu trả lời này dựa trên thông tin có trong tài liệu đã tải lên. Nếu bạn cần thông tin chi tiết hơn, vui lòng tham khảo trực tiếp tài liệu gốc.*"

/-- `LLMService.generateResponse`.  The model invocation is an oracle
`invoke : prompt → Except errMsg content`; the second component of the output
counts how many times the oracle was called.  The sentinel check happens
before any model call; afterwards the invocation result is validated
(non-empty), cleaned, and possibly annotated with the generic-answer
disclaimer; a failed call is mapped to a category-specific message. -/
def LLMService.generateResponse (invoke : String → Except String String)
    (question searchResults : String) : GenerateResult × Nat :=
  let trimmedQuestion := jsTake API_CONFIG.MAX_QUESTION_LENGTH (jsTrim question)
  let trimmedSearchResults := jsTake API_CONFIG.MAX_SEARCH_RESULTS_LENGTH searchResults
  if trimmedSearchResults = "" || jsTrim trimmedSearchResults = noRelevantInfoSentinel then
    (⟨true, some noRelevantInfoReply, none⟩, 0)
  else
    let prompt := LLMService.createRAGPrompt trimmedQuestion trimmedSearchResults
    match invoke prompt with
    | Except.error e => (⟨false, none, some (LLMService.handleLLMError e)⟩, 1)
    | Except.ok response =>
      if jsTrim response = "" then (⟨false, none, some "Empty response from LLM"⟩, 1)
      else
        let cleaned := LLMService.cleanResponse response
        if LLMService.isGenericResponse cleaned then
          (⟨true, some (cleaned ++ genericDisclaimer), none⟩, 1)
        else (⟨true, some cleaned, none⟩, 1)

/-! ## PDFProcessingService (`src/services/pdf/pdfProcessor.ts`) -/

/-- Per-size-tier processing configuration. -/
structure ProcConfig where
  chunkSize : Nat
  chunkOverlap : Nat
  batchSize : Nat
deriving DecidableEq, Repr

/-- `PDFProcessingService.getOptimalProcessingConfig`: three size tiers keyed
on the extracted text length. -/
def PDFProcessingService.getOptimalProcessingConfig (textLength : Nat) : ProcConfig :=
  if textLength < PROCESSING_CONFIG.SMALL_DOC_THRESHOLD then
    ⟨PROCESSING_CONFIG.SMALL_DOC_CHUNK_SIZE, PROCESSING_CONFIG.SMALL_DOC_CHUNK_OVERLAP,
      PROCESSING_CONFIG.STANDARD_BATCH_SIZE⟩
  else if textLength < PROCESSING_CONFIG.MEDIUM_DOC_THRESHOLD then
    ⟨PROCESSING_CONFIG.MEDIUM_DOC_CHUNK_SIZE, PROCESSING_CONFIG.MEDIUM_DOC_CHUNK_OVERLAP,
      PROCESSING_CONFIG.MEDIUM_BATCH_SIZE⟩
  else
    ⟨PROCESSING_CONFIG.LARGE_DOC_CHUNK_SIZE, PROCESSING_CONFIG.LARGE_DOC_CHUNK_OVERLAP,
      PROCESSING_CONFIG.LARGE_BATCH_SIZE⟩

/-! ## Sessions (`src/types/index.ts`, `pdfProcessingService.ts`) -/

/-- A `UserSession`.  The vector store owned by a session is modelled by the
list of documents it was built from (`none` when absent); timestamps are
abstract ticks supplied by the caller; the processing error log holds the
messages pushed by the ingestion pipeline. -/
structure Session where
  sessionId : String
  vectorstore : Option (List Doc)
  documents : List Doc
  pdfName : Option String
  createdAt : Nat
  lastAccessed : Nat
  processingErrors : List String
  vectorStoreStatus : String
deriving DecidableEq, Repr

/-! ## Ingestion pipeline (`pdfProcessingService.ts`, `_processInternal`) -/

/-- Fuel-driven worker for `strideSample`; the fuel always exceeds the number
of loop iterations for a positive step. -/
def strideSampleFuel (l : List α) (step : Nat) : Nat → Nat → List α
  | 0, _ => []
  | fuel + 1, i =>
    match l[i]? with
    | some a => a :: strideSampleFuel l step fuel (i + step)
    | none => []

/-- The sampling loop of the large-document branch:
`for (let i = 0; i < splits.length; i += stepSize) sampled.push(splits[i])`. -/
def strideSample (l : List α) (step : Nat) : List α :=
  strideSampleFuel l step (l.length + 1) 0

/-- The stride used for large documents: `Math.ceil(splits.length / 100)`
with the 100-chunk ceiling for the vector store. -/
def largeDocStep (n : Nat) : Nat := (n + 99) / 100

/-- Environment of one ingestion run: the pieces supplied by configuration
and by the external embedding provider.  `buildAttempt i docs` is the outcome
of the `i`-th `MemoryVectorStore.fromDocuments` call on `docs` (raced against
its timeout: a timeout loss is an error mentioning a timeout). -/
structure IngestEnv where
  apiKeyPresent : Bool
  embedTest : Except String Unit
  buildAttempt : Nat → List Doc → Except String Unit

/-- Retry loop of the standard (small-document) branch: up to `maxRetries = 3`
attempts with backoff, propagating the last error. -/
def PdfProcessingService.retryBuild (env : IngestEnv) (splits : List Doc) :
    Except String Unit :=
  match env.buildAttempt 0 splits with
  | Except.ok _ => Except.ok ()
  | Except.error _ =>
    match env.buildAttempt 1 splits with
    | Except.ok _ => Except.ok ()
    | Except.error _ => env.buildAttempt 2 splits

/-- Outcome of the vector-database creation block of `_processInternal`
(the `try` body): on success it yields the documents the store was built from
together with whether this branch also stores the full chunk list on the
session (the large and medium branches do, the standard branch does not); a
thrown error carries its message. -/
def PdfProcessingService.vectorBuildOutcome (env : IngestEnv) (splits : List Doc) :
    Except String (List Doc × Bool) :=
  if !env.apiKeyPresent then Except.error "OpenAI API key is not configured"
  else
    match env.embedTest with
    | Except.error e => Except.error ("Embeddings API is not accessible: " ++ e)
    | Except.ok _ =>
      if 200 < splits.length then
        let sampled := strideSample splits (largeDocStep splits.length)
        match env.buildAttempt 0 sampled with
        | Except.ok _ => Except.ok (sampled, true)
        | Except.error e => Except.error e
      else if 50 < splits.length then
        match env.buildAttempt 0 splits with
        | Except.ok _ => Except.ok (splits, true)
        | Except.error e => Except.error e
      else
        match PdfProcessingService.retryBuild env splits with
        | Except.ok _ => Except.ok (splits, false)
        | Except.error e => Except.error e

/-- Error classification of the `catch` block of the vector-database stage:
a user-facing message and a warning code. -/
def PdfProcessingService.classifyVectorError (msg : String) : String × String :=
  if containsSubstr msg "quota" || containsSubstr msg "rate limit" then
    ("OpenAI API quota exceeded or rate limit reached", "API_QUOTA_EXCEEDED")
  else if containsSubstr msg "authentication" || containsSubstr msg "Unauthorized" then
    ("OpenAI API authentication failed", "API_AUTH_FAILED")
  else if containsSubstr msg "network" || containsSubstr msg "timeout" then
    ("Network error or timeout while creating vector database", "NETWORK_ERROR")
  else if containsSubstr msg "API key" then
    ("OpenAI API key configuration error", "API_KEY_ERROR")
  else
    ("Vector database creation error: " ++ msg, "VECTOR_DB_ERROR")

/-- Result record of `processPdfBuffer` / `_processInternal`. -/
structure ProcessOutcome where
  success : Bool
  sessionId : String
  error : Option String
deriving DecidableEq, Repr

/-- The tail of `_processInternal` from the vector-database stage onward,
given the session and the chunk list produced by the (successful) validation,
extraction and splitting stages.  On a build failure the error is absorbed:
the chunk list is stored for lexical fallback only when the session held no
documents, the store reference is cleared, the status becomes `fallback`, the
message is logged, and the run still reports success with a warning. -/
def PdfProcessingService.processFromSplits (env : IngestEnv) (session : Session)
    (fileName : String) (splits : List Doc) (now : Nat) :
    ProcessOutcome × Session :=
  match PdfProcessingService.vectorBuildOutcome env splits with
  | Except.ok (docsUsed, storeDocs) =>
    let session :=
      { session with
        vectorstore := some docsUsed
        vectorStoreStatus := "created"
        documents := if storeDocs then splits else session.documents
        pdfName := some fileName
        lastAccessed := now }
    (⟨true, session.sessionId, none⟩, session)
  | Except.error msg =>
    let classified := PdfProcessingService.classifyVectorError msg
    let session :=
      { session with
        documents := if session.documents.isEmpty then splits else session.documents
        vectorstore := none
        vectorStoreStatus := "fallback"
        processingErrors := session.processingErrors ++ [classified.1]
        pdfName := some fileName
        lastAccessed := now }
    (⟨true, session.sessionId,
      some ("Warning: " ++ classified.2 ++ " - Using text search fallback")⟩, session)

/-! ## SessionService (`src/services/session/sessionService.ts`) -/

/-- The global session map, keyed by session id. -/
abbrev SessionStore := List (String × Session)

/-- Lookup in the session map (`userSessions.get`). -/
def SessionStore.lookup (st : SessionStore) (sid : String) : Option Session :=
  (List.find? (fun p => p.1 = sid) st).map (fun p => p.2)

/-- Replace the session stored under an existing id. -/
def SessionStore.set (st : SessionStore) (sid : String) (s : Session) : SessionStore :=
  List.map (fun p => if p.1 = sid then (sid, s) else p) st

/-- The state transition of `SessionService.resetSession` on a session that
exists: clear the store reference, the chunks, the document name, the status
and the error log, refreshing the access time. -/
def SessionService.resetState (s : Session) (now : Nat) : Session :=
  { s with
    vectorstore := none
    documents := []
    pdfName := none
    vectorStoreStatus := "not_created"
    processingErrors := []
    lastAccessed := now }

/-- `SessionService.resetSession`: look the session up (refreshing its access
time), then clear it in place; a missing session reports failure. -/
def SessionService.resetSession (st : SessionStore) (sid : String) (now : Nat) :
    SessionStore × Bool :=
  match st.lookup sid with
  | none => (st, false)
  | some s => (st.set sid (SessionService.resetState s now), true)

/-- The state transition of the legacy `PdfProcessingService.resetSession`:
it clears the store reference, the chunks and the document name, but leaves
`vectorStoreStatus` and the processing-error log untouched. -/
def PdfProcessingService.resetState (s : Session) (now : Nat) : Session :=
  { s with
    vectorstore := none
    documents := []
    pdfName := none
    lastAccessed := now }

/-- `PdfProcessingService.resetSession` over the session map. -/
def PdfProcessingService.resetSessionStore (st : SessionStore) (sid : String)
    (now : Nat) : SessionStore :=
  match st.lookup sid with
  | none => st
  | some s => st.set sid (PdfProcessingService.resetState s now)

/-- The session-status record shared by the detailed status endpoints. -/
structure DetailedStatus where
  session_exists : Bool
  vectorstore_available : Bool
  pdf_uploaded : Bool
  current_pdf : Option String
  vector_store_status : String
  documents_count : Nat
  processing_errors : List String
deriving DecidableEq, Repr

/-- `getDetailedSessionStatus` (shared shape of the `SessionService` and
`PdfProcessingService` variants): report the stored status fields of the
session, or defaults when the session is missing. -/
def getDetailedSessionStatus (st : SessionStore) (sid : String) : DetailedStatus :=
  match st.lookup sid with
  | none => ⟨false, false, false, none, "not_created", 0, []⟩
  | some s =>
    ⟨true, s.vectorstore.isSome, s.pdfName.isSome, s.pdfName,
      s.vectorStoreStatus, s.documents.length, s.processingErrors⟩

/-! ## Claim C7: size-tier configuration monotonicity -/

/-- C7 counterexample: a text of length 10 falls in a strictly smaller tier
than a text of length 30, yet its configured batch size (50) is strictly
larger than the larger tier's batch size (25); so the batch size is not
monotone non-decreasing across tiers as the claim states. -/
theorem C7_counterexample :
    10 < PROCESSING_CONFIG.SMALL_DOC_THRESHOLD ∧
    PROCESSING_CONFIG.SMALL_DOC_THRESHOLD ≤ 30 ∧
    30 < PROCESSING_CONFIG.MEDIUM_DOC_THRESHOLD ∧
    ¬ (PDFProcessingService.getOptimalProcessingConfig 10).batchSize ≤
        (PDFProcessingService.getOptimalProcessingConfig 30).batchSize := by
  refine ⟨by decide, by decide, by decide, by decide⟩

/-- C7 (amended): across the three size tiers the chunk size and the chunk
overlap are monotone non-decreasing in the text length, while the batch size
is monotone non-increasing (50, then 25, then 10). -/
theorem C7_config_monotone (a b : Nat) (hab : a ≤ b) :
    (PDFProcessingService.getOptimalProcessingConfig a).chunkSize ≤
      (PDFProcessingService.getOptimalProcessingConfig b).chunkSize ∧
    (PDFProcessingService.getOptimalProcessingConfig a).chunkOverlap ≤
      (PDFProcessingService.getOptimalProcessingConfig b).chunkOverlap ∧
    (PDFProcessingService.getOptimalProcessingConfig b).batchSize ≤
      (PDFProcessingService.getOptimalProcessingConfig a).batchSize := by
  unfold PDFProcessingService.getOptimalProcessingConfig
  unfold PROCESSING_CONFIG.SMALL_DOC_THRESHOLD PROCESSING_CONFIG.MEDIUM_DOC_THRESHOLD
  unfold PROCESSING_CONFIG.SMALL_DOC_CHUNK_SIZE PROCESSING_CONFIG.MEDIUM_DOC_CHUNK_SIZE
  unfold PROCESSING_CONFIG.LARGE_DOC_CHUNK_SIZE PROCESSING_CONFIG.SMALL_DOC_CHUNK_OVERLAP
  unfold PROCESSING_CONFIG.MEDIUM_DOC_CHUNK_OVERLAP PROCESSING_CONFIG.LARGE_DOC_CHUNK_OVERLAP
  unfold PROCESSING_CONFIG.STANDARD_BATCH_SIZE PROCESSING_CONFIG.MEDIUM_BATCH_SIZE
  unfold PROCESSING_CONFIG.LARGE_BATCH_SIZE
  split_ifs <;> simp_all <;> omega

/-- C7 witness: the amended monotonicity at the concrete pair (10, 30). -/
theorem C7_config_monotone_witness :
    10 ≤ 30 ∧
    ((PDFProcessingService.getOptimalProcessingConfig 10).chunkSize ≤
        (PDFProcessingService.getOptimalProcessingConfig 30).chunkSize ∧
      (PDFProcessingService.getOptimalProcessingConfig 10).chunkOverlap ≤
        (PDFProcessingService.getOptimalProcessingConfig 30).chunkOverlap ∧
      (PDFProcessingService.getOptimalProcessingConfig 30).batchSize ≤
        (PDFProcessingService.getOptimalProcessingConfig 10).batchSize) :=
  ⟨by decide, C7_config_monotone 10 30 (by decide)⟩

/-! ## Claim C9: sentinel context short-circuits the model call -/

/-- C9: when the context block is empty or is exactly the canonical
nothing-found sentinel, `generateResponse` returns the fixed
no-relevant-information reply with `success = true` and the model oracle is
never invoked (the call count is zero). -/
theorem C9_sentinel_no_model_call (invoke : String → Except String String)
    (question searchResults : String)
    (h : searchResults = "" ∨ searchResults = noRelevantInfoSentinel) :
    LLMService.generateResponse invoke question searchResults =
      (⟨true, some noRelevantInfoReply, none⟩, 0) := by
  rcases h with h | h <;> subst h <;> rfl

/-- C9 witness: the exact sentinel string with a concrete failing oracle. -/
theorem C9_sentinel_no_model_call_witness :
    (noRelevantInfoSentinel = "" ∨ noRelevantInfoSentinel = noRelevantInfoSentinel) ∧
    LLMService.generateResponse (fun _ => Except.error "provider down")
        "Quy định PCCC là gì" noRelevantInfoSentinel =
      (⟨true, some noRelevantInfoReply, none⟩, 0) :=
  ⟨Or.inr rfl,
    C9_sentinel_no_model_call (fun _ => Except.error "provider down")
      "Quy định PCCC là gì" noRelevantInfoSentinel (Or.inr rfl)⟩

/-! ## Claim C10: hybrid search absorbs failures of both sub-searches -/

/-- C10: when both the vector and the text sub-search of hybrid search fail,
the combined call still reports success with an empty result list, zero
totalFound, and no error message propagated from either sub-search. -/
theorem C10_hybrid_absorbs_failures (vs : MemoryVectorStore) (documents : List Doc)
    (query : String) (options : SearchOptions)
    (hv : (SearchService.vectorSearch vs query (hybridVectorOptions options)).success = false)
    (ht : (SearchService.textSearch documents query (hybridTextOptions options)).success = false) :
    SearchService.hybridSearch vs documents query options =
      ⟨true, [], 0, "hybrid", none⟩ := by
  have hvm : SearchService.hybridVectorMap vs query options = [] := by
    unfold SearchService.hybridVectorMap
    rw [hv]
    simp
  unfold SearchService.hybridSearch SearchService.hybridCombinedMap
  rw [ht, hvm]
  simp [sortDescBy, List.insertionSort]

/-- C10 witness: a provider whose similarity search rejects and an empty
document list make both sub-searches fail; hybrid search still succeeds with
no results. -/
theorem C10_hybrid_absorbs_failures_witness :
    (SearchService.vectorSearch ⟨1, fun _ _ => Except.error "boom", fun _ _ => Except.error "boom"⟩
        "hello" (hybridVectorOptions {})).success = false ∧
    (SearchService.textSearch [] "hello" (hybridTextOptions {})).success = false ∧
    SearchService.hybridSearch
        ⟨1, fun _ _ => Except.error "boom", fun _ _ => Except.error "boom"⟩ [] "hello" {} =
      ⟨true, [], 0, "hybrid", none⟩ :=
  ⟨rfl, rfl,
    C10_hybrid_absorbs_failures
      ⟨1, fun _ _ => Except.error "boom", fun _ _ => Except.error "boom"⟩ [] "hello" {} rfl rfl⟩

/-! ## Claim C1: index-build failures degrade, never fail, the ingestion -/

/-- C1 counterexample: when the session already holds a document list from an
earlier ingestion, an index-build failure leaves the old list in place
instead of storing the freshly produced chunk list, so the claim that the
session retains the full (current) chunk list does not hold for reused
sessions. -/
theorem C1_counterexample :
    PdfProcessingService.vectorBuildOutcome
        ⟨true, Except.ok (), fun _ _ => Except.error "boom"⟩ [⟨"new chunk", none⟩] =
      Except.error "boom" ∧
    (PdfProcessingService.processFromSplits
        ⟨true, Except.ok (), fun _ _ => Except.error "boom"⟩
        ⟨"s1", none, [⟨"old chunk", none⟩], some "old.pdf", 0, 0, [], "fallback"⟩
        "new.pdf" [⟨"new chunk", none⟩] 5).2.documents = [⟨"old chunk", none⟩] ∧
    ([⟨"old chunk", none⟩] : List Doc) ≠ [⟨"new chunk", none⟩] :=
  ⟨rfl, rfl, by decide⟩

/-- C1 (amended): whenever the vector-index construction fails, for any
reason, the ingestion still reports success together with a warning string,
the session's index reference is cleared, its index status becomes the
degraded `fallback` value, and the failure is appended to the error log;
the full chunk list is stored for lexical search whenever the session's
document list was empty when the run began (a reused session with a prior
document list keeps that prior list). -/
theorem C1_index_failure_degrades (env : IngestEnv) (session : Session)
    (fileName : String) (splits : List Doc) (now : Nat) (msg : String)
    (h : PdfProcessingService.vectorBuildOutcome env splits = Except.error msg) :
    (PdfProcessingService.processFromSplits env session fileName splits now).1.success = true ∧
    (PdfProcessingService.processFromSplits env session fileName splits now).1.error =
      some ("Warning: " ++ (PdfProcessingService.classifyVectorError msg).2 ++
        " - Using text search fallback") ∧
    (PdfProcessingService.processFromSplits env session fileName splits now).2.vectorstore = none ∧
    (PdfProcessingService.processFromSplits env session fileName splits now).2.vectorStoreStatus =
      "fallback" ∧
    (PdfProcessingService.processFromSplits env session fileName splits now).2.processingErrors =
      session.processingErrors ++ [(PdfProcessingService.classifyVectorError msg).1] ∧
    (session.documents = [] →
      (PdfProcessingService.processFromSplits env session fileName splits now).2.documents = splits) ∧
    (session.documents ≠ [] →
      (PdfProcessingService.processFromSplits env session fileName splits now).2.documents =
        session.documents) := by
  unfold PdfProcessingService.processFromSplits
  rw [h]
  refine ⟨rfl, rfl, rfl, rfl, rfl, ?_, ?_⟩
  · intro hd
    simp [hd]
  · intro hd
    simp [List.isEmpty_iff, hd]

/-- C1 witness: a fresh session (empty document list) whose only build
attempt rejects; the run succeeds with a warning and stores the chunks. -/
theorem C1_index_failure_degrades_witness :
    PdfProcessingService.vectorBuildOutcome
        ⟨true, Except.ok (), fun _ _ => Except.error "boom"⟩ [⟨"chunk a", none⟩] =
      Except.error "boom" ∧
    (PdfProcessingService.processFromSplits
        ⟨true, Except.ok (), fun _ _ => Except.error "boom"⟩
        ⟨"s2", none, [], none, 0, 0, [], "not_created"⟩
        "doc.pdf" [⟨"chunk a", none⟩] 7).1.success = true ∧
    (PdfProcessingService.processFromSplits
        ⟨true, Except.ok (), fun _ _ => Except.error "boom"⟩
        ⟨"s2", none, [], none, 0, 0, [], "not_created"⟩
        "doc.pdf" [⟨"chunk a", none⟩] 7).2.documents = [⟨"chunk a", none⟩] :=
  ⟨rfl,
    (C1_index_failure_degrades ⟨true, Except.ok (), fun _ _ => Except.error "boom"⟩
      ⟨"s2", none, [], none, 0, 0, [], "not_created"⟩ "doc.pdf" [⟨"chunk a", none⟩] 7
      "boom" rfl).1,
    (C1_index_failure_degrades ⟨true, Except.ok (), fun _ _ => Except.error "boom"⟩
      ⟨"s2", none, [], none, 0, 0, [], "not_created"⟩ "doc.pdf" [⟨"chunk a", none⟩] 7
      "boom" rfl).2.2.2.2.2.1 rfl⟩

/-! ## Claim C6: stride sampling for large documents -/

/-- Index characterization of the sampling loop: provided the fuel covers the
whole traversal, the element at position `k` of the sample is the element at
position `i + k * step` of the underlying list. -/
theorem strideSampleFuel_getElem? (l : List α) (step : Nat) :
    ∀ fuel i, l.length ≤ i + fuel * step →
      ∀ k, (strideSampleFuel l step fuel i)[k]? = l[i + k * step]? := by
  intro fuel
  induction fuel with
  | zero =>
    intro i hi k
    have hi2 : l.length ≤ i := by omega
    simp only [strideSampleFuel, List.getElem?_nil]
    rw [List.getElem?_eq_none (le_trans hi2 (Nat.le_add_right i (k * step)))]
  | succ fuel ih =>
    intro i hi k
    simp only [strideSampleFuel]
    cases hl : l[i]? with
    | none =>
      have hlen : l.length ≤ i := List.getElem?_eq_none_iff.mp hl
      rw [List.getElem?_eq_none (le_trans hlen (Nat.le_add_right i (k * step)))]
      simp
    | some a =>
      cases k with
      | zero => simpa using hl.symm
      | succ k =>
        have := ih (i + step) (by rw [Nat.succ_mul] at hi; omega) k
        simpa [Nat.succ_mul, Nat.add_assoc, Nat.add_comm, Nat.add_left_comm,
          Nat.mul_comm, Nat.mul_left_comm] using this

/-- Index characterization of `strideSample` for a positive step. -/
theorem strideSample_getElem? (l : List α) (step : Nat) (hs : 0 < step) (k : Nat) :
    (strideSample l step)[k]? = l[k * step]? := by
  have hfuel : l.length ≤ 0 + (l.length + 1) * step := by
    have : l.length + 1 ≤ (l.length + 1) * step := Nat.le_mul_of_pos_right _ hs
    omega
  simpa using strideSampleFuel_getElem? l step (l.length + 1) 0 hfuel k

/-- The stride used for a large document always covers it in at most 100
samples. -/
theorem strideSample_large_length_le (l : List α) (h : 200 < l.length) :
    (strideSample l (largeDocStep l.length)).length ≤ 100 := by
  have hstep : 0 < largeDocStep l.length := by
    unfold largeDocStep
    exact Nat.div_pos (by omega) (by norm_num)
  have hcover : l.length ≤ 100 * largeDocStep l.length := by
    unfold largeDocStep
    have h1 := Nat.div_add_mod (l.length + 99) 100
    have h2 : (l.length + 99) % 100 < 100 := Nat.mod_lt _ (by norm_num)
    omega
  have h100 : (strideSample l (largeDocStep l.length))[100]? = none := by
    rw [strideSample_getElem? l _ hstep 100]
    exact List.getElem?_eq_none (by omega)
  exact List.getElem?_eq_none_iff.mp h100

/-- C6: for a chunk list longer than 200 entries whose (sampled) index build
succeeds, the session's index is built from exactly the deterministic stride
sample with step `ceil(n / 100)` (the sample's k-th entry is the chunk at
position `k * step`), the sample never exceeds 100 chunks, the full unsampled
chunk list is stored on the session for lexical search, and the run reports
success. -/
theorem C6_large_doc_stride_sampling (env : IngestEnv) (session : Session)
    (fileName : String) (splits : List Doc) (now : Nat)
    (hlarge : 200 < splits.length)
    (hkey : env.apiKeyPresent = true)
    (htest : env.embedTest = Except.ok ())
    (hbuild : env.buildAttempt 0 (strideSample splits (largeDocStep splits.length)) =
      Except.ok ()) :
    (PdfProcessingService.processFromSplits env session fileName splits now).2.vectorstore =
      some (strideSample splits (largeDocStep splits.length)) ∧
    (PdfProcessingService.processFromSplits env session fileName splits now).2.documents =
      splits ∧
    (strideSample splits (largeDocStep splits.length)).length ≤ 100 ∧
    (∀ k, (strideSample splits (largeDocStep splits.length))[k]? =
      splits[k * largeDocStep splits.length]?) ∧
    (PdfProcessingService.processFromSplits env session fileName splits now).1.success = true := by
  have houtcome : PdfProcessingService.vectorBuildOutcome env splits =
      Except.ok (strideSample splits (largeDocStep splits.length), true) := by
    unfold PdfProcessingService.vectorBuildOutcome
    rw [hkey, htest]
    simp only [Bool.not_true, Bool.false_eq_true, if_false, if_pos hlarge]
    rw [hbuild]
  have hstep : 0 < largeDocStep splits.length := by
    unfold largeDocStep
    exact Nat.div_pos (by omega) (by norm_num)
  unfold PdfProcessingService.processFromSplits
  rw [houtcome]
  exact ⟨rfl, rfl, strideSample_large_length_le splits hlarge,
    fun k => strideSample_getElem? splits _ hstep k, rfl⟩

/-! ## Claim C8: reset behaviour -/

/-- Looking up the key just written returns the new session whenever the key
was already present. -/
theorem SessionStore.lookup_set_self (st : SessionStore) (sid : String)
    (s0 s : Session) (h : st.lookup sid = some s0) :
    (st.set sid s).lookup sid = some s := by
  induction st with
  | nil => simp [SessionStore.lookup] at h
  | cons p st ih =>
    by_cases hp : p.1 = sid
    · simp [SessionStore.lookup, SessionStore.set, hp]
    · have hhead : SessionStore.lookup (p :: st) sid = SessionStore.lookup st sid := by
        unfold SessionStore.lookup
        rw [List.find?_cons_of_neg _ (by simpa using hp)]
      have hset : SessionStore.set (p :: st) sid s = p :: SessionStore.set st sid s := by
        unfold SessionStore.set
        rw [List.map_cons, if_neg hp]
      rw [hhead] at h
      rw [hset]
      have hhead2 : SessionStore.lookup (p :: SessionStore.set st sid s) sid =
          SessionStore.lookup (SessionStore.set st sid s) sid := by
        unfold SessionStore.lookup
        rw [List.find?_cons_of_neg _ (by simpa using hp)]
      rw [hhead2]
      exact ih h

/-- Writing the same key twice keeps only the second write. -/
theorem SessionStore.set_set (st : SessionStore) (sid : String) (a b : Session) :
    (st.set sid a).set sid b = st.set sid b := by
  unfold SessionStore.set
  rw [List.map_map]
  apply List.map_congr_left
  intro p _
  by_cases hp : p.1 = sid
  · simp [Function.comp, hp]
  · simp [Function.comp, hp]

/-- Resetting an already-reset session only refreshes the access time. -/
theorem SessionService.resetState_resetState (s : Session) (n1 n2 : Nat) :
    SessionService.resetState (SessionService.resetState s n1) n2 =
      SessionService.resetState s n2 := by
  cases s; rfl

/-- C8 counterexample: the repository's second reset implementation,
`PdfProcessingService.resetSession`, leaves the index status and the
processing-error log untouched, so after it the detailed status still
reports the degraded status and a non-empty error log, contradicting the
claim for that reset operation. -/
theorem C8_counterexample :
    (getDetailedSessionStatus
        (PdfProcessingService.resetSessionStore
          [("s1", ⟨"s1", some [⟨"chunk body", none⟩], [⟨"chunk body", none⟩],
            some "doc.pdf", 0, 0, ["OpenAI API quota exceeded or rate limit reached"],
            "fallback"⟩)] "s1" 3) "s1").vector_store_status = "fallback" ∧
    (getDetailedSessionStatus
        (PdfProcessingService.resetSessionStore
          [("s1", ⟨"s1", some [⟨"chunk body", none⟩], [⟨"chunk body", none⟩],
            some "doc.pdf", 0, 0, ["OpenAI API quota exceeded or rate limit reached"],
            "fallback"⟩)] "s1" 3) "s1").processing_errors ≠ [] ∧
    "fallback" ≠ "not_created" :=
  ⟨rfl, by decide, by decide⟩

/-- C8 (amended): for `SessionService.resetSession` on an existing session
the claim holds exactly as stated: the reset reports success, the detailed
status afterwards shows the session still exists with index status
`not_created`, zero chunks, no document name and a cleared error log, and a
second reset produces the same store state as a single reset; the legacy
`PdfProcessingService.resetSession` clears chunks, index and name but leaves
the index status and the error log unchanged. -/
theorem C8_reset_session (st : SessionStore) (sid : String) (s : Session)
    (now now2 : Nat) (h : st.lookup sid = some s) :
    (SessionService.resetSession st sid now).2 = true ∧
    getDetailedSessionStatus (SessionService.resetSession st sid now).1 sid =
      ⟨true, false, false, none, "not_created", 0, []⟩ ∧
    (SessionService.resetSession (SessionService.resetSession st sid now).1 sid now2).1 =
      (SessionService.resetSession st sid now2).1 := by
  have hmain : SessionService.resetSession st sid now =
      (st.set sid (SessionService.resetState s now), true) := by
    unfold SessionService.resetSession
    rw [h]
  have hlook : (st.set sid (SessionService.resetState s now)).lookup sid =
      some (SessionService.resetState s now) :=
    SessionStore.lookup_set_self st sid s _ h
  refine ⟨by rw [hmain], ?_, ?_⟩
  · rw [hmain]
    unfold getDetailedSessionStatus
    rw [hlook]
    rfl
  · rw [hmain]
    unfold SessionService.resetSession
    rw [hlook, h]
    simp only [SessionStore.set_set, SessionService.resetState_resetState]

/-- C8 witness: a concrete one-session store. -/
theorem C8_reset_session_witness :
    ([("s1", (⟨"s1", some [⟨"c", none⟩], [⟨"c", none⟩], some "doc.pdf", 0, 0,
        ["err"], "fallback"⟩ : Session))] : SessionStore).lookup "s1" =
      some ⟨"s1", some [⟨"c", none⟩], [⟨"c", none⟩], some "doc.pdf", 0, 0,
        ["err"], "fallback"⟩ ∧
    getDetailedSessionStatus
        (SessionService.resetSession
          [("s1", ⟨"s1", some [⟨"c", none⟩], [⟨"c", none⟩], some "doc.pdf", 0, 0,
            ["err"], "fallback"⟩)] "s1" 1).1 "s1" =
      ⟨true, false, false, none, "not_created", 0, []⟩ :=
  ⟨rfl,
    (C8_reset_session
      [("s1", ⟨"s1", some [⟨"c", none⟩], [⟨"c", none⟩], some "doc.pdf", 0, 0,
        ["err"], "fallback"⟩)] "s1"
      ⟨"s1", some [⟨"c", none⟩], [⟨"c", none⟩], some "doc.pdf", 0, 0,
        ["err"], "fallback"⟩ 1 2 rfl).2.1⟩

/-! ## Claim C2: smart-search strategy selection -/

/-- C2 counterexample: with a valid index, no chunks, and a query longer than
100 characters, smart search returns the terminal no-suitable-method failure
instead of the lexical search the claim prescribes for long queries without
both resources. -/
theorem C2_counterexample :
    (VectorStoreService.validateVectorStore
        (some ⟨1, fun _ _ => Except.error "e", fun _ _ => Except.error "e"⟩)).isValid = true ∧
    100 < jsLen (jsTrim (String.mk (List.replicate 101 'a'))) ∧
    SearchService.smartSearch
        (some ⟨1, fun _ _ => Except.error "e", fun _ _ => Except.error "e"⟩) []
        (String.mk (List.replicate 101 'a')) {} =
      mkSearchFailure "none" "No suitable search method available" ∧
    SearchService.smartSearch
        (some ⟨1, fun _ _ => Except.error "e", fun _ _ => Except.error "e"⟩) []
        (String.mk (List.replicate 101 'a')) {} ≠
      SearchService.textSearch [] (String.mk (List.replicate 101 'a')) {} := by
  refine ⟨rfl, by decide, rfl, by decide⟩

/-- C2 (amended): smart search selects its strategy as follows.  With neither
a valid index nor chunks it returns the terminal no-resources failure.  A
query whose trimmed length is under 20 characters uses vector search alone
whenever a valid index exists; without a valid index, any query falls back to
lexical search over the chunks.  A query of trimmed length at least 20 with
both a valid index and chunks uses hybrid search (so a long query never uses
pure vector search as its sole source).  With only a valid index and no
chunks, a query longer than 100 characters returns the terminal
no-suitable-method failure (lexical search is impossible there). -/
theorem C2_smart_search_policy (vs? : Option MemoryVectorStore) (docs : List Doc)
    (query : String) (opts : SearchOptions) :
    ((VectorStoreService.validateVectorStore vs?).isValid = false → docs = [] →
      SearchService.smartSearch vs? docs query opts =
        mkSearchFailure "none" "No search resources available") ∧
    (∀ v, vs? = some v → (VectorStoreService.validateVectorStore vs?).isValid = true →
      jsLen (jsTrim query) < 20 →
      SearchService.smartSearch vs? docs query opts =
        SearchService.vectorSearch v query opts) ∧
    ((VectorStoreService.validateVectorStore vs?).isValid = false → docs ≠ [] →
      SearchService.smartSearch vs? docs query opts =
        SearchService.textSearch docs query opts) ∧
    (∀ v, vs? = some v → (VectorStoreService.validateVectorStore vs?).isValid = true →
      docs ≠ [] → 20 ≤ jsLen (jsTrim query) →
      SearchService.smartSearch vs? docs query opts =
        SearchService.hybridSearch v docs query opts) ∧
    ((VectorStoreService.validateVectorStore vs?).isValid = true → docs = [] →
      100 < jsLen (jsTrim query) →
      SearchService.smartSearch vs? docs query opts =
        mkSearchFailure "none" "No suitable search method available") := by
  refine ⟨?_, ?_, ?_, ?_, ?_⟩
  · intro h1 h2
    subst h2
    unfold SearchService.smartSearch
    rw [h1]
    simp
  · intro v hv h1 hq
    subst hv
    unfold SearchService.smartSearch
    rw [h1]
    have hshort : decide (jsLen (jsTrim query) < 20) = true := by
      simpa using hq
    have hlong : decide (100 < jsLen (jsTrim query)) = false := by
      simp; omega
    simp [hshort, hlong]
  · intro h1 h2
    have hne : docs.isEmpty = false := by
      simpa [List.isEmpty_iff] using h2
    cases vs? with
    | none =>
      unfold SearchService.smartSearch
      simp [VectorStoreService.validateVectorStore, hne]
    | some v =>
      unfold SearchService.smartSearch
      rw [h1]
      simp [hne]
  · intro v hv h1 h2 hq
    subst hv
    have hne : docs.isEmpty = false := by
      simpa [List.isEmpty_iff] using h2
    unfold SearchService.smartSearch
    rw [h1]
    have hshort : decide (jsLen (jsTrim query) < 20) = false := by
      simp; omega
    simp [hne, hshort]
  · intro h1 h2 hq
    subst h2
    cases vs? with
    | none => simp [VectorStoreService.validateVectorStore] at h1
    | some v =>
      unfold SearchService.smartSearch
      rw [h1]
      have hlong : decide (100 < jsLen (jsTrim query)) = true := by
        simpa using hq
      have hshort : decide (jsLen (jsTrim query) < 20) = false := by
        simp; omega
      simp [hshort, hlong]

/-- C2 witness: the amended policy at a concrete long query with an index and
no chunks. -/
theorem C2_smart_search_policy_witness :
    (VectorStoreService.validateVectorStore
        (some ⟨2, fun _ _ => Except.error "e", fun _ _ => Except.error "e"⟩)).isValid = true ∧
    (([] : List Doc) = []) ∧
    100 < jsLen (jsTrim (String.mk (List.replicate 120 'b'))) ∧
    SearchService.smartSearch
        (some ⟨2, fun _ _ => Except.error "e", fun _ _ => Except.error "e"⟩) []
        (String.mk (List.replicate 120 'b')) {} =
      mkSearchFailure "none" "No suitable search method available" :=
  ⟨rfl, rfl, by decide,
    (C2_smart_search_policy
      (some ⟨2, fun _ _ => Except.error "e", fun _ _ => Except.error "e"⟩) []
      (String.mk (List.replicate 120 'b')) {}).2.2.2.2 rfl rfl (by decide)⟩

/-- C6 witness: 201 identical chunks with an always-succeeding provider. -/
theorem C6_large_doc_stride_sampling_witness :
    200 < (List.replicate 201 (⟨"c", none⟩ : Doc)).length ∧
    (PdfProcessingService.processFromSplits
        ⟨true, Except.ok (), fun _ _ => Except.ok ()⟩
        ⟨"s3", none, [], none, 0, 0, [], "not_created"⟩ "big.pdf"
        (List.replicate 201 (⟨"c", none⟩ : Doc)) 9).2.vectorstore =
      some (strideSample (List.replicate 201 (⟨"c", none⟩ : Doc))
        (largeDocStep (List.replicate 201 (⟨"c", none⟩ : Doc)).length)) ∧
    (strideSample (List.replicate 201 (⟨"c", none⟩ : Doc))
        (largeDocStep (List.replicate 201 (⟨"c", none⟩ : Doc)).length)).length ≤ 100 :=
  ⟨by rw [List.length_replicate]; norm_num,
    (C6_large_doc_stride_sampling ⟨true, Except.ok (), fun _ _ => Except.ok ()⟩
      ⟨"s3", none, [], none, 0, 0, [], "not_created"⟩ "big.pdf"
      (List.replicate 201 (⟨"c", none⟩ : Doc)) 9
      (by rw [List.length_replicate]; norm_num) rfl rfl rfl).1,
    (C6_large_doc_stride_sampling ⟨true, Except.ok (), fun _ _ => Except.ok ()⟩
      ⟨"s3", none, [], none, 0, 0, [], "not_created"⟩ "big.pdf"
      (List.replicate 201 (⟨"c", none⟩ : Doc)) 9
      (by rw [List.length_replicate]; norm_num) rfl rfl rfl).2.2.1⟩

/-! ## Claim C3: lexical text search -/

/-- C3: for any non-empty trimmed query and non-empty chunk list, lexical
search succeeds; it returns at most `maxResults` results (default 3), the
result list is sorted in descending score order, and every returned result
is one of the supplied chunks carrying exactly the term-weighted score of
that chunk (strictly positive, so zero-score chunks are discarded).
Determinism is inherent: the function is pure. -/
theorem C3_text_search (documents : List Doc) (query : String) (options : SearchOptions)
    (hq : jsTrim query ≠ "") (hd : documents ≠ []) :
    (SearchService.textSearch documents query options).success = true ∧
    (SearchService.textSearch documents query options).results.length ≤
      options.maxResults.getD PROCESSING_CONFIG.MAX_SEARCH_RESULTS ∧
    (SearchService.textSearch documents query options).results.Pairwise
      (fun a b => b.score.getD 0 ≤ a.score.getD 0) ∧
    (∀ r ∈ (SearchService.textSearch documents query options).results,
      ∃ d ∈ documents, r.content = d.pageContent ∧ r.source = d.source ∧
        r.score = some (SearchService.scoreDoc query d) ∧
        0 < SearchService.scoreDoc query d) ∧
    (SearchService.textSearch documents query options).searchType = "text" := by
  have hde : documents.isEmpty = false := by
    simpa [List.isEmpty_iff] using hd
  unfold SearchService.textSearch
  rw [if_neg hq, hde]
  simp only [Bool.false_eq_true, if_false]
  refine ⟨by trivial, ?_, ?_, ?_, by trivial⟩
  · rw [List.length_map]
    exact List.length_take_le _ _
  · have hsorted : ((sortDescBy (fun p : Doc × ℚ => p.2)
        ((documents.map (fun d => (d, SearchService.scoreDoc query d))).filter
          (fun p => 0 < p.2)))).Pairwise (scoreGE (fun p => p.2)) :=
      List.sorted_insertionSort _ _
    have htake := hsorted.sublist
      (List.take_sublist (options.maxResults.getD PROCESSING_CONFIG.MAX_SEARCH_RESULTS) _)
    rw [List.pairwise_map]
    exact htake.imp (fun h => by simpa [scoreGE] using h)
  · intro r hr
    rcases List.mem_map.mp hr with ⟨p, hp, rfl⟩
    have hp2 := List.mem_of_mem_take hp
    have hp3 : p ∈ (documents.map (fun d => (d, SearchService.scoreDoc query d))).filter
        (fun p => 0 < p.2) :=
      ((List.perm_insertionSort _ _).mem_iff).mp hp2
    rcases List.mem_filter.mp hp3 with ⟨hp4, hp5⟩
    rcases List.mem_map.mp hp4 with ⟨d, hdmem, rfl⟩
    exact ⟨d, hdmem, rfl, rfl, rfl, by simpa using hp5⟩

/-- C3 witness: a single fire-safety chunk matched by a two-term query. -/
theorem C3_text_search_witness :
    jsTrim "fire safety" ≠ "" ∧
    ([(⟨"fire safety regulations require regular inspection", none⟩ : Doc)] ≠ []) ∧
    (SearchService.textSearch
        [⟨"fire safety regulations require regular inspection", none⟩]
        "fire safety" {}).success = true ∧
    (SearchService.textSearch
        [⟨"fire safety regulations require regular inspection", none⟩]
        "fire safety" {}).results.length ≤ 3 :=
  ⟨by decide, by decide,
    (C3_text_search [⟨"fire safety regulations require regular inspection", none⟩]
      "fire safety" {} (by decide) (by decide)).1,
    (C3_text_search [⟨"fire safety regulations require regular inspection", none⟩]
      "fire safety" {} (by decide) (by decide)).2.1⟩

/-! ## Claim C4: hybrid deduplication invariant -/

/-- Well-formedness of the combination map: keys are distinct, and each entry
is stored under the deduplication key of its value. -/
def RMapWF (m : List (String × SearchResult)) : Prop :=
  (rKeys m).Nodup ∧ ∀ p ∈ m, p.1 = keyOf p.2

/-- The empty map is well-formed. -/
theorem rMapWF_nil : RMapWF [] := ⟨List.nodup_nil, by simp⟩

/-- A key that the map does not have belongs to no entry. -/
theorem rHas_eq_false_iff (m : List (String × SearchResult)) (k : String) :
    rHas m k = false ↔ ∀ p ∈ m, p.1 ≠ k := by
  unfold rHas
  rw [List.any_eq_false]
  constructor
  · intro h p hp
    have := h p hp
    simpa using this
  · intro h p hp
    simpa using h p hp

/-- `rSet` does not change the key list when the key is already present. -/
theorem rKeys_rSet_of_has (m : List (String × SearchResult)) (k : String)
    (v : SearchResult) (h : rHas m k = true) :
    rKeys (rSet m k v) = rKeys m := by
  unfold rSet
  rw [if_pos h]
  unfold rKeys
  rw [List.map_map]
  apply List.map_congr_left
  intro p _
  by_cases hp : p.1 = k
  · simp [hp]
  · simp [hp]

/-- `rSet` preserves well-formedness when the new value is stored under its
own deduplication key. -/
theorem rSet_preserves_wf {m : List (String × SearchResult)} {k : String}
    {v : SearchResult} (h : RMapWF m) (hk : k = keyOf v) : RMapWF (rSet m k v) := by
  by_cases hhas : rHas m k
  · refine ⟨?_, ?_⟩
    · rw [rKeys_rSet_of_has m k v hhas]
      exact h.1
    · intro p' hp'
      unfold rSet at hp'
      rw [if_pos hhas] at hp'
      rcases List.mem_map.mp hp' with ⟨p, hp, rfl⟩
      by_cases hpk : p.1 = k
      · simpa [hpk] using hk
      · simpa [hpk] using h.2 p hp
  · have hfalse : rHas m k = false := by simpa using hhas
    have hnot : ∀ p ∈ m, p.1 ≠ k := (rHas_eq_false_iff m k).mp hfalse
    unfold rSet
    rw [if_neg hhas]
    refine ⟨?_, ?_⟩
    · unfold rKeys
      rw [List.map_append, List.nodup_append]
      refine ⟨h.1, by simp, ?_⟩
      intro a ha hb
      simp only [List.map_cons, List.map_nil, List.mem_singleton] at hb
      rcases List.mem_map.mp ha with ⟨p, hp, rfl⟩
      exact hnot p hp hb
    · intro p hp
      rcases List.mem_append.mp hp with hp | hp
      · exact h.2 p hp
      · simp only [List.mem_singleton] at hp
        subst hp
        exact hk

/-- Folding the vector results into the map preserves well-formedness. -/
theorem addVectorResults_wf (rs : List SearchResult)
    (m : List (String × SearchResult)) (h : RMapWF m) :
    RMapWF (SearchService.addVectorResults m rs) := by
  induction rs generalizing m with
  | nil => exact h
  | cons r rs ih =>
    rw [SearchService.addVectorResults]
    exact ih _ (rSet_preserves_wf h rfl)

/-- Folding the text results into the map preserves well-formedness. -/
theorem addTextResults_wf (rs : List SearchResult)
    (m : List (String × SearchResult)) (h : RMapWF m) :
    RMapWF (SearchService.addTextResults m rs) := by
  induction rs generalizing m with
  | nil => exact h
  | cons r rs ih =>
    rw [SearchService.addTextResults]
    refine ih _ ?_
    cases hget : rGet m (keyOf r) with
    | none => exact rSet_preserves_wf h rfl
    | some existing =>
      have hkey : keyOf r = keyOf existing := by
        unfold rGet at hget
        cases hfind : List.find? (fun p => p.1 = keyOf r) m with
        | none => rw [hfind] at hget; exact Option.noConfusion hget
        | some p =>
          rw [hfind] at hget
          have hget2 : p.2 = existing := Option.some.inj hget
          have h1 : p.1 = keyOf r := by simpa using List.find?_some hfind
          have h2 : p.1 = keyOf p.2 := h.2 p (List.mem_of_find?_eq_some hfind)
          rw [hget2] at h2
          rw [← h1, h2]
      exact rSet_preserves_wf h hkey

/-- In a well-formed map the stored values have pairwise distinct
deduplication keys. -/
theorem values_pairwise_of_wf (m : List (String × SearchResult)) (h : RMapWF m) :
    (m.map (fun p => p.2)).Pairwise (fun a b => keyOf a ≠ keyOf b) := by
  have h1 : m.Pairwise (fun p q => p.1 ≠ q.1) := List.pairwise_map.mp h.1
  have h2 : m.Pairwise (fun p q => keyOf p.2 ≠ keyOf q.2) :=
    h1.imp_of_mem (fun hp hq hne => by
      rw [← h.2 _ hp, ← h.2 _ hq]; exact hne)
  exact List.pairwise_map.mpr h2

/-- The vector phase of the hybrid combination map is well-formed. -/
theorem hybridVectorMap_wf (vs : MemoryVectorStore) (query : String)
    (options : SearchOptions) : RMapWF (SearchService.hybridVectorMap vs query options) := by
  unfold SearchService.hybridVectorMap
  split
  · exact addVectorResults_wf _ _ rMapWF_nil
  · exact rMapWF_nil

/-- The hybrid combination map is always well-formed. -/
theorem hybridCombinedMap_wf (vs : MemoryVectorStore) (documents : List Doc)
    (query : String) (options : SearchOptions) :
    RMapWF (SearchService.hybridCombinedMap vs documents query options) := by
  unfold SearchService.hybridCombinedMap
  split
  · exact addTextResults_wf _ _ (hybridVectorMap_wf vs query options)
  · exact hybridVectorMap_wf vs query options

/-- C4: the hybrid search result list never contains two entries with the
same deduplication key (first 100 characters of the content, lower-cased,
whitespace-collapsed, trimmed): a passage found by both sub-searches appears
once. -/
theorem C4_hybrid_dedup (vs : MemoryVectorStore) (documents : List Doc)
    (query : String) (options : SearchOptions) :
    (SearchService.hybridSearch vs documents query options).results.Pairwise
      (fun a b => SearchService.generateResultKey a.content ≠
        SearchService.generateResultKey b.content) := by
  have hpair := values_pairwise_of_wf _ (hybridCombinedMap_wf vs documents query options)
  have hperm := List.perm_insertionSort (scoreGE (fun r : SearchResult => r.score.getD 0))
    ((SearchService.hybridCombinedMap vs documents query options).map (fun p => p.2))
  have hsorted : (((SearchService.hybridCombinedMap vs documents query options).map
      (fun p => p.2)).insertionSort
        (scoreGE (fun r : SearchResult => r.score.getD 0))).Pairwise
        (fun a b => keyOf a ≠ keyOf b) :=
    (List.Perm.pairwise_iff (fun h => Ne.symm h) hperm).mpr hpair
  exact hsorted.sublist
    (List.take_sublist (options.maxResults.getD PROCESSING_CONFIG.MAX_SEARCH_RESULTS) _)

/-! ## Claim C5: hybrid score combination

Supporting lemmas characterizing the combination map when each sub-search
returns results with pairwise distinct deduplication keys (the situation the
claim describes, where "the vectorScore" and "the lexicalScore" of a passage
are well defined). -/

/-- Vector-phase weighting: the 1.2 boost. -/
def boostVector (r : SearchResult) : SearchResult :=
  { r with score := some (r.score.getD 0 * (12/10)) }

/-- Text-phase weighting for a passage the vector phase did not find:
the 0.8 down-weight. -/
def weightText (r : SearchResult) : SearchResult :=
  { r with score := some (r.score.getD 0 * (8/10)) }

/-- Text-phase merge into an existing entry: add 0.8 times the text score. -/
def mergeText (ex t : SearchResult) : SearchResult :=
  { ex with score := some (ex.score.getD 0 + t.score.getD 0 * (8/10)) }

/-- What the text phase does to one stored entry: merge the unique text
result with the entry's key, if any. -/
def patchEntry (ts : List SearchResult) (p : String × SearchResult) :
    String × SearchResult :=
  match ts.find? (fun t => keyOf t = p.1) with
  | some t => (p.1, mergeText p.2 t)
  | none => p

/-- Key membership only depends on the key list. -/
theorem rHas_eq_keys_any (m : List (String × SearchResult)) (k : String) :
    rHas m k = (rKeys m).any (fun a => a = k) := by
  induction m with
  | nil => rfl
  | cons p m ih =>
    unfold rHas rKeys at ih ⊢
    simp only [List.any_cons, List.map_cons]
    rw [ih]

/-- `rHas` over an append. -/
theorem rHas_append (m1 m2 : List (String × SearchResult)) (k : String) :
    rHas (m1 ++ m2) k = (rHas m1 k || rHas m2 k) :=
  List.any_append

/-- `rSet` appends when the key is absent. -/
theorem rSet_of_not_has (m : List (String × SearchResult)) (k : String)
    (v : SearchResult) (h : rHas m k = false) : rSet m k v = m ++ [(k, v)] := by
  unfold rSet
  rw [h]
  rfl

/-- `rGet` misses when the key is absent. -/
theorem rGet_of_not_has (m : List (String × SearchResult)) (k : String)
    (h : rHas m k = false) : rGet m k = none := by
  unfold rGet
  rw [List.find?_eq_none.mpr]
  · rfl
  · intro p hp
    simpa using (rHas_eq_false_iff m k).mp h p hp

/-- With distinct keys, an entry is determined by its key. -/
theorem entry_unique_of_nodup_keys (m : List (String × SearchResult))
    (hnd : (rKeys m).Nodup) (p q : String × SearchResult)
    (hp : p ∈ m) (hq : q ∈ m) (h : p.1 = q.1) : p = q := by
  induction m with
  | nil => cases hp
  | cons a m ih =>
    have hnd2 : (rKeys m).Nodup := by
      unfold rKeys at hnd ⊢
      exact (List.nodup_cons.mp (by simpa using hnd)).2
    have hnot : a.1 ∉ rKeys m := by
      unfold rKeys at hnd ⊢
      exact (List.nodup_cons.mp (by simpa using hnd)).1
    rcases List.mem_cons.mp hp with hp | hp <;>
      rcases List.mem_cons.mp hq with hq | hq
    · rw [hp, hq]
    · exfalso
      apply hnot
      rw [hp] at h
      rw [h]
      exact List.mem_map.mpr ⟨q, hq, rfl⟩
    · exfalso
      apply hnot
      rw [hq] at h
      rw [← h]
      exact List.mem_map.mpr ⟨p, hp, rfl⟩
    · exact ih hnd2 hp hq

/-- Vector phase on fresh keys: with pairwise-distinct keys none of which is
already in the map, the vector results are appended in order, boosted. -/
theorem addVectorResults_eq (rs : List SearchResult) (m : List (String × SearchResult))
    (hfresh : ∀ r ∈ rs, rHas m (keyOf r) = false)
    (hnd : (rs.map keyOf).Nodup) :
    SearchService.addVectorResults m rs =
      m ++ rs.map (fun r => (keyOf r, boostVector r)) := by
  induction rs generalizing m with
  | nil => simp [SearchService.addVectorResults]
  | cons r rs ih =>
    rw [SearchService.addVectorResults]
    have h0 : rHas m (keyOf r) = false := hfresh r (List.mem_cons_self r rs)
    have hset : rSet m (keyOf r) (boostVector r) = m ++ [(keyOf r, boostVector r)] :=
      rSet_of_not_has m _ _ h0
    show SearchService.addVectorResults (rSet m (keyOf r) (boostVector r)) rs = _
    rw [hset]
    have hnd2 : (rs.map keyOf).Nodup := (List.nodup_cons.mp hnd).2
    have hknot : keyOf r ∉ rs.map keyOf := (List.nodup_cons.mp hnd).1
    have hfresh2 : ∀ t ∈ rs, rHas (m ++ [(keyOf r, boostVector r)]) (keyOf t) = false := by
      intro t ht
      rw [rHas_append]
      have h1 : rHas m (keyOf t) = false := hfresh t (List.mem_cons_of_mem r ht)
      have h2 : rHas [(keyOf r, boostVector r)] (keyOf t) = false := by
        have : keyOf r ≠ keyOf t := fun he => hknot (he ▸ List.mem_map.mpr ⟨t, ht, rfl⟩)
        simp [rHas, this]
      rw [h1, h2]
      rfl
    rw [ih _ hfresh2 hnd2]
    simp

/-- Text phase: with pairwise-distinct text keys and a well-formed map, the
text phase patches each stored entry with the unique matching text result and
appends the unmatched text results, down-weighted, in order. -/
theorem addTextResults_eq (ts : List SearchResult) (m : List (String × SearchResult))
    (hnd : (ts.map keyOf).Nodup) (hwf : RMapWF m) :
    SearchService.addTextResults m ts =
      m.map (patchEntry ts) ++
        (ts.filter (fun t => !(rHas m (keyOf t)))).map (fun t => (keyOf t, weightText t)) := by
  induction ts generalizing m with
  | nil =>
    have hid : ∀ p ∈ m, patchEntry [] p = p := by
      intro p _
      rfl
    simp only [SearchService.addTextResults, List.filter_nil, List.map_nil,
      List.append_nil]
    rw [List.map_congr_left hid, List.map_id']
  | cons t ts ih =>
    have hnd2 : (ts.map keyOf).Nodup := (List.nodup_cons.mp hnd).2
    have hknot : keyOf t ∉ ts.map keyOf := (List.nodup_cons.mp hnd).1
    have hfindts : ts.find? (fun u => keyOf u = keyOf t) = none := by
      rw [List.find?_eq_none]
      intro u hu
      simp only [decide_eq_true_eq]
      exact fun he => hknot (he ▸ List.mem_map.mpr ⟨u, hu, rfl⟩)
    by_cases hhas : rHas m (keyOf t) = true
    · -- the key is present: the unique entry is patched in place
      have hsome : ∃ p0, List.find? (fun p => p.1 = keyOf t) m = some p0 := by
        unfold rHas at hhas
        rcases List.any_eq_true.mp hhas with ⟨p, hp, hpk⟩
        cases hfind : List.find? (fun p => p.1 = keyOf t) m with
        | none => exact absurd hpk (by simpa using List.find?_eq_none.mp hfind p hp)
        | some p0 => exact ⟨p0, rfl⟩
      rcases hsome with ⟨p0, hfind⟩
      have hp0mem : p0 ∈ m := List.mem_of_find?_eq_some hfind
      have hp0key : p0.1 = keyOf t := by simpa using List.find?_some hfind
      have hget : rGet m (keyOf t) = some p0.2 := by
        unfold rGet
        rw [hfind]
        rfl
      rw [SearchService.addTextResults, hget]
      show SearchService.addTextResults (rSet m (keyOf t) (mergeText p0.2 t)) ts = _
      have hsetmap : rSet m (keyOf t) (mergeText p0.2 t) =
          m.map (fun p => if p.1 = keyOf t then (keyOf t, mergeText p0.2 t) else p) := by
        unfold rSet
        rw [hhas]
        simp
      have hwf2 : RMapWF (rSet m (keyOf t) (mergeText p0.2 t)) := by
        refine rSet_preserves_wf hwf ?_
        show keyOf t = keyOf (mergeText p0.2 t)
        have hk : keyOf (mergeText p0.2 t) = keyOf p0.2 := rfl
        rw [hk, ← hwf.2 p0 hp0mem, hp0key]
      rw [ih _ hnd2 hwf2]
      have hkeys : rKeys (rSet m (keyOf t) (mergeText p0.2 t)) = rKeys m :=
        rKeys_rSet_of_has m (keyOf t) (mergeText p0.2 t) hhas
      congr 1
      · -- patched maps agree entry-wise
        rw [hsetmap, List.map_map]
        apply List.map_congr_left
        intro p hp
        by_cases hpk : p.1 = keyOf t
        · have hpeq : p = p0 :=
            entry_unique_of_nodup_keys m hwf.1 p p0 hp hp0mem (by rw [hpk, hp0key])
          simp only [Function.comp_apply, if_pos hpk]
          unfold patchEntry
          have hfindhead : List.find? (fun u => keyOf u = p.1) (t :: ts) = some t := by
            rw [List.find?_cons_of_pos]
            simp [hpk]
          rw [hfindts, hfindhead]
          rw [hpeq, hp0key]
        · simp only [Function.comp_apply, if_neg hpk]
          unfold patchEntry
          have hfindtail : List.find? (fun u => keyOf u = p.1) (t :: ts) =
              List.find? (fun u => keyOf u = p.1) ts := by
            rw [List.find?_cons_of_neg]
            simp only [decide_eq_true_eq]
            exact fun he => hpk he.symm
          rw [hfindtail]
      · -- the filtered tails agree
        have hfilter : ∀ u ∈ ts,
            (!(rHas (rSet m (keyOf t) (mergeText p0.2 t)) (keyOf u))) =
              (!(rHas m (keyOf u))) := by
          intro u _
          rw [rHas_eq_keys_any, hkeys, ← rHas_eq_keys_any]
        rw [List.filter_cons]
        simp only [hhas, Bool.not_true, Bool.false_eq_true, if_false]
        rw [List.filter_congr hfilter]
    · -- the key is fresh: the entry is appended, down-weighted
      have hhasf : rHas m (keyOf t) = false := by simpa using hhas
      have hget : rGet m (keyOf t) = none := rGet_of_not_has m _ hhasf
      rw [SearchService.addTextResults, hget]
      show SearchService.addTextResults (rSet m (keyOf t) (weightText t)) ts = _
      have hwf2 : RMapWF (rSet m (keyOf t) (weightText t)) :=
        rSet_preserves_wf hwf rfl
      rw [ih _ hnd2 hwf2]
      rw [rSet_of_not_has m _ _ hhasf]
      rw [List.map_append]
      have hpatchlast : patchEntry ts (keyOf t, weightText t) = (keyOf t, weightText t) := by
        unfold patchEntry
        rw [hfindts]
      have hnotm : ∀ p ∈ m, p.1 ≠ keyOf t := (rHas_eq_false_iff m _).mp hhasf
      have hmpatch : ∀ p ∈ m, patchEntry ts p = patchEntry (t :: ts) p := by
        intro p hp
        unfold patchEntry
        have hskip : List.find? (fun u => keyOf u = p.1) (t :: ts) =
            List.find? (fun u => keyOf u = p.1) ts := by
          rw [List.find?_cons_of_neg]
          simp only [decide_eq_true_eq]
          exact fun he => hnotm p hp he.symm
        rw [hskip]
      have hfiltercons : (t :: ts).filter (fun u => !(rHas m (keyOf u))) =
          t :: ts.filter (fun u => !(rHas m (keyOf u))) := by
        rw [List.filter_cons]
        simp [hhasf]
      have hfiltertail : ∀ u ∈ ts,
          (!(rHas (m ++ [(keyOf t, weightText t)]) (keyOf u))) =
            (!(rHas m (keyOf u))) := by
        intro u hu
        rw [rHas_append]
        have hone : rHas [(keyOf t, weightText t)] (keyOf u) = false := by
          have hne : keyOf t ≠ keyOf u := fun he => hknot (he ▸ List.mem_map.mpr ⟨u, hu, rfl⟩)
          simp [rHas, hne]
        rw [hone, Bool.or_false]
      rw [List.filter_congr hfiltertail]
      simp only [List.map_cons, List.map_nil]
      rw [hpatchlast]
      rw [List.map_congr_left hmpatch]
      rw [hfiltercons, List.map_cons]
      rw [List.append_assoc]
      rfl

/-- Key membership in the vector-phase map built from pairwise-fresh keys. -/
theorem rHas_vector_map (vrs : List SearchResult) (k : String) :
    rHas (vrs.map (fun v => (keyOf v, boostVector v))) k =
      vrs.any (fun v => keyOf v = k) := by
  induction vrs with
  | nil => rfl
  | cons v vrs ih =>
    unfold rHas at ih ⊢
    simp only [List.map_cons, List.any_cons]
    rw [ih]

/-- The vector-phase map is well-formed when the vector results have pairwise
distinct keys. -/
theorem vector_map_wf (vrs : List SearchResult) (hnd : (vrs.map keyOf).Nodup) :
    RMapWF (vrs.map (fun v => (keyOf v, boostVector v))) := by
  constructor
  · have hkeys : rKeys (vrs.map (fun v => (keyOf v, boostVector v))) = vrs.map keyOf := by
      unfold rKeys
      rw [List.map_map]
      rfl
    rw [hkeys]
    exact hnd
  · intro p hp
    rcases List.mem_map.mp hp with ⟨v, _, rfl⟩
    rfl

/-- Specification-side description of the hybrid combination, following the
claim: every vector-derived result is weighted by 1.2; a passage found by
both strategies scores `1.2 * vectorScore + 0.8 * lexicalScore`; a text-only
passage is weighted by 0.8 and appended after the vector-derived entries. -/
def SearchService.hybridSpecCombine (vrs trs : List SearchResult) : List SearchResult :=
  vrs.map (fun v =>
    match trs.find? (fun t => keyOf t = keyOf v) with
    | some t =>
      { v with score := some (v.score.getD 0 * (12/10) + t.score.getD 0 * (8/10)) }
    | none => { v with score := some (v.score.getD 0 * (12/10)) })
  ++ (trs.filter (fun t => !(vrs.any (fun v => keyOf v = keyOf t)))).map weightText

/-- The values of the combination map are exactly the spec-side combination
when both sub-searches succeed with pairwise-distinct keys. -/
theorem hybridCombinedMap_values (vs : MemoryVectorStore) (documents : List Doc)
    (query : String) (options : SearchOptions)
    (hv : (SearchService.vectorSearch vs query (hybridVectorOptions options)).success = true)
    (ht : (SearchService.textSearch documents query (hybridTextOptions options)).success = true)
    (hndv : ((SearchService.vectorSearch vs query
      (hybridVectorOptions options)).results.map keyOf).Nodup)
    (hndt : ((SearchService.textSearch documents query
      (hybridTextOptions options)).results.map keyOf).Nodup) :
    (SearchService.hybridCombinedMap vs documents query options).map (fun p => p.2) =
      SearchService.hybridSpecCombine
        (SearchService.vectorSearch vs query (hybridVectorOptions options)).results
        (SearchService.textSearch documents query (hybridTextOptions options)).results := by
  unfold SearchService.hybridCombinedMap SearchService.hybridVectorMap
  rw [hv, ht]
  simp only [if_true]
  rw [addVectorResults_eq _ [] (fun r _ => rfl) hndv, List.nil_append]
  rw [addTextResults_eq _ _ hndt (vector_map_wf _ hndv)]
  rw [List.map_append]
  unfold SearchService.hybridSpecCombine
  congr 1
  · rw [List.map_map, List.map_map]
    apply List.map_congr_left
    intro v _
    simp only [Function.comp_apply]
    unfold patchEntry
    have hfst : (keyOf v, boostVector v).1 = keyOf v := rfl
    rw [hfst]
    cases hfind : (SearchService.textSearch documents query
        (hybridTextOptions options)).results.find? (fun t => keyOf t = keyOf v) with
    | some t => rfl
    | none => rfl
  · have hfilter : ∀ u ∈ (SearchService.textSearch documents query
        (hybridTextOptions options)).results,
        (!(rHas ((SearchService.vectorSearch vs query
          (hybridVectorOptions options)).results.map
            (fun v => (keyOf v, boostVector v))) (keyOf u))) =
          (!((SearchService.vectorSearch vs query
            (hybridVectorOptions options)).results.any (fun v => keyOf v = keyOf u))) := by
      intro u _
      rw [rHas_vector_map]
    rw [List.filter_congr hfilter]
    rw [List.map_map]
    rfl

/-- C5: when both sub-searches of hybrid search succeed and each returns
results with pairwise-distinct deduplication keys, the hybrid result list is
exactly the spec-side combination — vector scores weighted by 1.2, lexical
scores by 0.8, a passage found by both getting `1.2 * vectorScore +
0.8 * lexicalScore` — sorted in descending order of combined score and
truncated to the requested maximum count. -/
theorem C5_hybrid_score_combination (vs : MemoryVectorStore) (documents : List Doc)
    (query : String) (options : SearchOptions)
    (hv : (SearchService.vectorSearch vs query (hybridVectorOptions options)).success = true)
    (ht : (SearchService.textSearch documents query (hybridTextOptions options)).success = true)
    (hndv : ((SearchService.vectorSearch vs query
      (hybridVectorOptions options)).results.map keyOf).Nodup)
    (hndt : ((SearchService.textSearch documents query
      (hybridTextOptions options)).results.map keyOf).Nodup) :
    (SearchService.hybridSearch vs documents query options).results =
      (sortDescBy (fun r => r.score.getD 0)
        (SearchService.hybridSpecCombine
          (SearchService.vectorSearch vs query (hybridVectorOptions options)).results
          (SearchService.textSearch documents query (hybridTextOptions options)).results)).take
        (options.maxResults.getD PROCESSING_CONFIG.MAX_SEARCH_RESULTS) := by
  have hmap := hybridCombinedMap_values vs documents query options hv ht hndv hndt
  show (sortDescBy (fun r => r.score.getD 0)
    ((SearchService.hybridCombinedMap vs documents query options).map (fun p => p.2))).take
      (options.maxResults.getD PROCESSING_CONFIG.MAX_SEARCH_RESULTS) = _
  rw [hmap]

/-- C5 witness: one vector result (score 0, long content) and a text search
that succeeds with no scoring terms. -/
theorem C5_hybrid_score_combination_witness :
    (SearchService.vectorSearch
        ⟨1, fun _ _ => Except.ok [(⟨String.mk (List.replicate 60 'v'), none⟩, 0)],
          fun _ _ => Except.error "x"⟩ "ab cd" (hybridVectorOptions {})).success = true ∧
    (SearchService.textSearch [⟨"zzzz", none⟩] "ab cd"
        (hybridTextOptions {})).success = true ∧
    ((SearchService.vectorSearch
        ⟨1, fun _ _ => Except.ok [(⟨String.mk (List.replicate 60 'v'), none⟩, 0)],
          fun _ _ => Except.error "x"⟩ "ab cd"
        (hybridVectorOptions {})).results.map keyOf).Nodup ∧
    ((SearchService.textSearch [⟨"zzzz", none⟩] "ab cd"
        (hybridTextOptions {})).results.map keyOf).Nodup ∧
    (SearchService.hybridSearch
        ⟨1, fun _ _ => Except.ok [(⟨String.mk (List.replicate 60 'v'), none⟩, 0)],
          fun _ _ => Except.error "x"⟩ [⟨"zzzz", none⟩] "ab cd" {}).results =
      (sortDescBy (fun r => r.score.getD 0)
        (SearchService.hybridSpecCombine
          (SearchService.vectorSearch
            ⟨1, fun _ _ => Except.ok [(⟨String.mk (List.replicate 60 'v'), none⟩, 0)],
              fun _ _ => Except.error "x"⟩ "ab cd" (hybridVectorOptions {})).results
          (SearchService.textSearch [⟨"zzzz", none⟩] "ab cd"
            (hybridTextOptions {})).results)).take
        (SearchOptions.maxResults {} |>.getD PROCESSING_CONFIG.MAX_SEARCH_RESULTS) :=
  ⟨rfl, rfl, by decide, by decide,
    C5_hybrid_score_combination
      ⟨1, fun _ _ => Except.ok [(⟨String.mk (List.replicate 60 'v'), none⟩, 0)],
        fun _ _ => Except.error "x"⟩ [⟨"zzzz", none⟩] "ab cd" {} rfl rfl
      (by decide) (by decide)⟩
